import Mathlib

/-!
# Verification of the Starlink Direct-to-Cell tracker core logic

Shallow embedding of the tracker's core functions (`app.js`, plus the
earlier unfiltered variant of the catalog loader) and proofs of the
specified properties.

Modelling conventions:
* JavaScript numbers are modelled as exact rationals `ℚ`; instants as
  integer milliseconds `ℤ` (`Date.getTime()`).
* `Math.round x` is `⌊x + 1/2⌋` (round half toward +∞, as in JS).
* `Number.prototype.toFixed(f)` rounds to the nearest multiple of
  `10^(-f)`, ties toward the larger value; the stored string is modelled
  by the rational it denotes (the code only ever reads it back through
  `parseFloat`).
* The external astrodynamics library (`satellite.twoline2satrec`,
  `propagate`, `gstime`, `eciToEcf`, `ecfToLookAngles`) is an opaque
  collaborator per the spec; the whole per-record pipeline from TLE lines
  and a time to observer-relative look angles is abstracted as a
  `Propagator` oracle.  `Except.error` models a thrown exception anywhere
  in the guarded block, `Except.ok none` models an invalid propagation
  result (`positionAndVelocity.position` absent or boolean), and
  `Except.ok (some la)` yields the look angles already converted to
  degrees (the degree/radian conversions on both sides of the oracle are
  fixed bijections absorbed into it).
* `Math.cos`/`Math.sin` in the sky-map projector are likewise abstracted
  as a unit-circle oracle mapping an azimuth to a direction vector.
* JS `Array.prototype.sort` with a consistent comparator is a stable
  sort; it is modelled by `List.insertionSort`, which is stable in the
  same orientation (earlier elements precede later tied elements).
-/

namespace Tracker

/-- JS `Math.round`: round half toward positive infinity. -/
def jsRound (q : ℚ) : ℤ := ⌊q + 1/2⌋

/-- The rational denoted by `x.toFixed(1)` (nearest tenth, ties up). -/
def jsToFixed1 (q : ℚ) : ℚ := (⌊q * 10 + 1/2⌋ : ℤ) / 10

/-- The rational denoted by `x.toFixed(0)` (nearest integer, ties up). -/
def jsToFixed0 (q : ℚ) : ℚ := (⌊q + 1/2⌋ : ℤ)

/-- The 16 compass labels of `getCompassDirection` in source order. -/
def directions : List String :=
  ["N", "NNE", "NE", "ENE", "E", "ESE", "SE", "SSE",
   "S", "SSW", "SW", "WSW", "W", "WNW", "NW", "NNW"]

/-- `getCompassDirection(azimuth)`: `directions[Math.round(azimuth / 22.5) % 16]`.
JS `%` truncates toward zero (`Int.tmod`); reading the array at a negative
index yields `undefined`, modelled as `none`. -/
def getCompassDirection (azimuth : ℚ) : Option String :=
  let index : ℤ := Int.tmod (jsRound (azimuth / (45/2))) 16
  if index < 0 then none else directions.get? index.toNat

/-- One parsed TLE record: `{name, tle1, tle2}`. -/
structure SatRecord where
  name : String
  tle1 : String
  tle2 : String
  deriving Repr, DecidableEq

/-- The unfiltered TLE parsing loop (earlier variant of `fetchTLEData`):
steps through the line array three at a time, keeping each full triple as
a record with the designation trimmed and the element lines verbatim. -/
def parseTLEplain : List String → List SatRecord
  | nm :: l1 :: l2 :: rest => ⟨nm.trim, l1, l2⟩ :: parseTLEplain rest
  | _ => []

/-- The designation filter of `fetchTLEData` in `app.js`:
`nameLower.includes('dtc') || nameLower.includes('direct to cell') ||
nameLower.includes('direct-to-cell')` on the lowercased trimmed name. -/
def dtcMatch (name : String) : Bool :=
  let nameLower := name.toLower
  nameLower.containsSubstr "dtc" ||
    nameLower.containsSubstr "direct to cell" ||
    nameLower.containsSubstr "direct-to-cell"

/-- The filtering TLE parsing loop of `fetchTLEData` in `app.js`: as
`parseTLEplain`, but a triple is kept only if its trimmed designation
passes `dtcMatch`. -/
def parseTLEfiltered : List String → List SatRecord
  | nm :: l1 :: l2 :: rest =>
      let name := nm.trim
      if dtcMatch name then ⟨name, l1, l2⟩ :: parseTLEfiltered rest
      else parseTLEfiltered rest
  | _ => []

/-- The observable outcome of `fetch` plus `response.text()`: `ok` is
`response.ok`, `text` is the body read, which may itself throw. -/
structure FetchResponse where
  ok : Bool
  text : Except String String

/-- `fetchTLEData` (`app.js`): a thrown transport error, a non-ok status,
or a failing body read are all caught and yield `false` with the stored
catalog untouched; on success the catalog is replaced wholesale by the
parse of `text.trim().split('\n')` and the call yields `true`. -/
def fetchTLEData (response : Except String FetchResponse)
    (satellites : List SatRecord) : Bool × List SatRecord :=
  match response with
  | .error _ => (false, satellites)
  | .ok r =>
    if !r.ok then (false, satellites)
    else
      match r.text with
      | .error _ => (false, satellites)
      | .ok text => (true, parseTLEfiltered ((text.trim).splitOn "\n"))

/-- Observer location as acquired from geolocation (degrees, degrees,
meters). The source converts it to radians/km (`observerGd`) before
handing it to the astrodynamics library; that fixed bijection is absorbed
into the `Propagator` oracle, which receives the raw location. -/
structure Observer where
  latitude : ℚ
  longitude : ℚ
  altitude : ℚ
  deriving Repr, DecidableEq

/-- Look angles for one record at one instant: azimuth and elevation in
degrees, slant range in km (see the module conventions). -/
structure LookAngle where
  azimuth : ℚ
  elevation : ℚ
  rangeSat : ℚ
  deriving Repr, DecidableEq

/-- The opaque propagation collaborator: observer, record, instant (ms) to
either a thrown exception (`Except.error`), an invalid propagation result
(`Except.ok none`), or look angles (`Except.ok (some la)`). -/
abbrev Propagator : Type :=
  Observer → SatRecord → ℤ → Except String (Option LookAngle)

/-- `MIN_ELEVATION`: minimum usable elevation in degrees. -/
def MIN_ELEVATION : ℚ := 25

/-- The guarded per-record pipeline of `calculatePositions`
(`try { twoline2satrec; propagate; ...; ecfToLookAngles } catch { skip }`
plus the validity test on `positionAndVelocity.position`): an exception or
an invalid result both lead to the record being skipped. -/
def checkSat (p : Propagator) (observerGd : Observer) (sat : SatRecord)
    (t : ℤ) : Option LookAngle :=
  match p observerGd sat t with
  | .error _ => none
  | .ok none => none
  | .ok (some la) => some la

/-- One entry of the `visible` array: `{name, azimuth: toFixed(1),
elevation: toFixed(1), distance: toFixed(0)}`, numeric fields holding the
rational denoted by the stored string. -/
structure VisibleEntry where
  name : String
  azimuth : ℚ
  elevation : ℚ
  distance : ℚ
  deriving Repr, DecidableEq

/-- The first `satellites.forEach` of `calculatePositions`: builds the
`visible` array in catalog order, keeping each record whose propagation
succeeds with elevation strictly above `MIN_ELEVATION`. -/
def visiblePre (p : Propagator) (obs : Observer) (now : ℤ)
    (satellites : List SatRecord) : List VisibleEntry :=
  satellites.filterMap fun sat =>
    match checkSat p obs sat now with
    | none => none
    | some la =>
      if MIN_ELEVATION < la.elevation then
        some ⟨sat.name, jsToFixed1 la.azimuth, jsToFixed1 la.elevation,
              jsToFixed0 la.rangeSat⟩
      else none

/-- The order imposed by `visible.sort((a, b) => parseFloat(b.elevation) -
parseFloat(a.elevation))`: `a` may stay before `b` iff the comparator is
non-positive, i.e. elevation non-increasing. -/
def visOrder (a b : VisibleEntry) : Prop := b.elevation ≤ a.elevation

instance : DecidableRel visOrder :=
  fun a b => inferInstanceAs (Decidable (b.elevation ≤ a.elevation))

/-- The stable sort of the `visible` array (JS `Array.sort` is stable;
`List.insertionSort` is stable in the same orientation). -/
def sortVisible (l : List VisibleEntry) : List VisibleEntry :=
  l.insertionSort visOrder

/-- One entry of the `upcoming` array: `{name, time: futureTime,
minutesUntil: minutes}`. -/
structure PassEntry where
  name : String
  time : ℤ
  minutesUntil : ℕ
  deriving Repr, DecidableEq

/-- The order imposed by `upcoming.sort((a, b) => a.minutesUntil -
b.minutesUntil)`: minutes-until non-decreasing. -/
def passOrder (a b : PassEntry) : Prop := a.minutesUntil ≤ b.minutesUntil

instance : DecidableRel passOrder :=
  fun a b => inferInstanceAs (Decidable (a.minutesUntil ≤ b.minutesUntil))

/-- The stable sort of the `upcoming` array. -/
def sortPasses (l : List PassEntry) : List PassEntry :=
  l.insertionSort passOrder

instance : IsTotal VisibleEntry visOrder :=
  ⟨fun a b => le_total b.elevation a.elevation⟩

instance : IsTrans VisibleEntry visOrder :=
  ⟨fun _ _ _ hab hbc => le_trans hbc hab⟩

instance : IsTotal PassEntry passOrder :=
  ⟨fun a b => Nat.le_total a.minutesUntil b.minutesUntil⟩

instance : IsTrans PassEntry passOrder :=
  ⟨fun _ _ _ hab hbc => Nat.le_trans hab hbc⟩

/-- The inner `for (const sat of satellites.slice(0, 100))` loop of the
forward scan at one `minutes` step (`futureTime` is computed once per step
in the outer loop): a record is appended when propagation at `futureTime`
succeeds above `MIN_ELEVATION` and no pass with the same name was already
collected (`!upcoming.find(p => p.name === sat.name)`); `break` on
reaching 5 entries. -/
def scanSats (p : Propagator) (obs : Observer) (futureTime : ℤ)
    (minutes : ℕ) : List SatRecord → List PassEntry → List PassEntry
  | [], upcoming => upcoming
  | sat :: rest, upcoming =>
    match checkSat p obs sat futureTime with
    | some la =>
      if MIN_ELEVATION < la.elevation ∧
          (upcoming.find? (fun q => q.name == sat.name)).isNone then
        if 5 ≤ (upcoming ++ [PassEntry.mk sat.name futureTime minutes]).length
        then upcoming ++ [PassEntry.mk sat.name futureTime minutes]
        else
          scanSats p obs futureTime minutes rest
            (upcoming ++ [PassEntry.mk sat.name futureTime minutes])
      else scanSats p obs futureTime minutes rest upcoming
    | none => scanSats p obs futureTime minutes rest upcoming

/-- The minute steps of the forward scan:
`for (let minutes = 1; minutes <= 180; minutes += 2)` gives 1, 3, …, 179. -/
def minutesList : List ℕ := (List.range 90).map fun k => 2 * k + 1

/-- The outer loop of the forward scan: compute
`futureTime = now + minutes*60*1000`, run the inner loop over the first
100 records, and stop as soon as 5 passes are collected. -/
def scanMinutes (p : Propagator) (obs : Observer) (now : ℤ)
    (satellites : List SatRecord) :
    List ℕ → List PassEntry → List PassEntry
  | [], upcoming => upcoming
  | m :: ms, upcoming =>
    let upcoming' :=
      scanSats p obs (now + (m : ℤ) * 60 * 1000) m (satellites.take 100)
        upcoming
    if 5 ≤ upcoming'.length then upcoming'
    else scanMinutes p obs now satellites ms upcoming'

/-- The pair handed to `renderApp` at the end of `calculatePositions`. -/
structure SampleResult where
  visible : List VisibleEntry
  upcoming : List PassEntry
  deriving Repr, DecidableEq

/-- `calculatePositions` (the spec's `sample(catalog, observer,
nowInstant)`): the early return on missing location or empty catalog
yields the empty result; otherwise the visible array is built and sorted,
and only when it is empty is the forward scan run and its result sorted.
The single `new Date()` read at entry is the explicit `now` parameter. -/
def calculatePositions (p : Propagator) (satellites : List SatRecord)
    (userLocation : Option Observer) (now : ℤ) : SampleResult :=
  match userLocation with
  | none => ⟨[], []⟩
  | some obs =>
    if satellites.length = 0 then ⟨[], []⟩
    else
      let visible := sortVisible (visiblePre p obs now satellites)
      let upcoming :=
        if visible.length = 0 then
          sortPasses (scanMinutes p obs now satellites minutesList [])
        else []
      ⟨visible, upcoming⟩

/-- `elevationRadius` of `renderSkyMap`:
`radius * (1 - (elevation / 90))`. -/
def elevationRadius (radius elevation : ℚ) : ℚ :=
  radius * (1 - elevation / 90)

/-- The per-satellite projection of `renderSkyMap`:
`x = center + r*cos(azimuthRad)`, `y = center + r*sin(azimuthRad)` with
`azimuthRad = (azimuth - 90) * π/180`.  `dirFn` is the unit-circle oracle
abstracting `azimuth ↦ (cos azimuthRad, sin azimuthRad)`. -/
def project (dirFn : ℚ → ℚ × ℚ) (center radius azimuth elevation : ℚ) :
    ℚ × ℚ :=
  (center + elevationRadius radius elevation * (dirFn azimuth).1,
   center + elevationRadius radius elevation * (dirFn azimuth).2)

/-! Concrete fixtures used by witness theorems. -/

/-- An observer at latitude 0, longitude 0, altitude 0. -/
def obs0 : Observer := ⟨0, 0, 0⟩

/-- A concrete catalog record. -/
def satA : SatRecord := ⟨"STARLINK-11000 DTC", "line1a", "line2a"⟩

/-- A second concrete catalog record. -/
def satB : SatRecord := ⟨"STARLINK-11001 DTC", "line1b", "line2b"⟩

/-- A propagator that always throws. -/
def propFail : Propagator := fun _ _ _ => .error "propagation failed"

/-- A propagator that always reports an invalid propagation result. -/
def propNone : Propagator := fun _ _ _ => .ok none

/-- A unit-circle oracle that always returns the direction (1, 0). -/
def dirEast : ℚ → ℚ × ℚ := fun _ => (1, 0)

/-! Theorems. -/

/-- C9: for any propagator, known observer and instant, running the
sampler on an empty catalog returns empty visible and upcoming lists (the
"waiting" condition), without any error. -/
theorem spec_c9 (p : Propagator) (obs : Observer) (now : ℤ) :
    calculatePositions p [] (some obs) now = ⟨[], []⟩ := rfl

/-- C1: the sampler is deterministic in its explicit inputs: two calls
with the same propagator, catalog, observer and instant return the same
visible and the same upcoming sets; the current instant is an explicit
parameter (the source reads the wall clock exactly once, at entry, and
threads that single value), so there is no hidden wall-clock dependency. -/
theorem spec_c1 (p : Propagator) (catalog : List SatRecord)
    (userLocation : Option Observer) (t₁ t₂ : ℤ) (h : t₁ = t₂) :
    (calculatePositions p catalog userLocation t₁).visible =
        (calculatePositions p catalog userLocation t₂).visible ∧
      (calculatePositions p catalog userLocation t₁).upcoming =
        (calculatePositions p catalog userLocation t₂).upcoming := by
  subst h
  exact ⟨rfl, rfl⟩

/-- Witness for C1 at a concrete catalog, observer and instant. -/
theorem spec_c1_witness :
    (calculatePositions propNone [satA] (some obs0) 0).visible =
        (calculatePositions propNone [satA] (some obs0) 0).visible ∧
      (calculatePositions propNone [satA] (some obs0) 0).upcoming =
        (calculatePositions propNone [satA] (some obs0) 0).upcoming :=
  spec_c1 propNone [satA] (some obs0) 0 0 rfl

/-- Length of the unfiltered TLE parse. -/
theorem parseTLEplain_length : ∀ lines : List String,
    (parseTLEplain lines).length = lines.length / 3
  | [] => rfl
  | [_] => by simp [parseTLEplain]
  | [_, _] => by simp [parseTLEplain]
  | _ :: _ :: _ :: rest => by
      simp only [parseTLEplain, List.length_cons, parseTLEplain_length rest]
      omega

/-- C6: the unfiltered catalog loader produces exactly
`⌊lineCount / 3⌋` records, takes line 0 of each group as the trimmed
designation and lines 1–2 verbatim, and silently drops a trailing partial
group; in particular a 7-line document yields 2 records. -/
theorem spec_c6 :
    (∀ lines : List String,
        (parseTLEplain lines).length = lines.length / 3) ∧
      (∀ nm l1 l2 : String, ∀ rest : List String,
        parseTLEplain (nm :: l1 :: l2 :: rest) =
          ⟨nm.trim, l1, l2⟩ :: parseTLEplain rest) ∧
      (parseTLEplain ["A", "l1a", "l2a", "B", "l1b", "l2b", "extra"]).length
        = 2 :=
  ⟨parseTLEplain_length, fun _ _ _ _ => rfl, rfl⟩

/-- The filtering TLE parse is the unfiltered parse followed by the
designation filter. -/
theorem parseTLEfiltered_eq : ∀ lines : List String,
    parseTLEfiltered lines =
      (parseTLEplain lines).filter (fun r => dtcMatch r.name)
  | [] => rfl
  | [_] => rfl
  | [_, _] => rfl
  | nm :: l1 :: l2 :: rest => by
      by_cases h : dtcMatch nm.trim <;>
        simp [parseTLEfiltered, parseTLEplain, List.filter_cons, h,
          parseTLEfiltered_eq rest]

/-- C7: the filtering catalog loader retains a parsed record exactly when
its case-folded designation contains one of the configured substrings
(`dtcMatch`), preserving document order (it equals the unfiltered parse
composed with `List.filter`); and a successful fetch reports success even
when zero records match, so an empty catalog is a soft condition, not a
fetch failure. -/
theorem spec_c7 :
    (∀ lines : List String,
        parseTLEfiltered lines =
          (parseTLEplain lines).filter (fun r => dtcMatch r.name)) ∧
      (∀ text : String, ∀ old : List SatRecord,
        (fetchTLEData (.ok ⟨true, .ok text⟩) old).1 = true) :=
  ⟨parseTLEfiltered_eq, fun _ _ => rfl⟩

/-- C10: `fetchTLEData` is total (never throws to its caller); whenever it
returns `false` — transport error, non-success status, or a failing body
read — the stored catalog is unchanged, and whenever it returns `true` the
response was fully successful and the stored catalog is replaced wholesale
by the parse of the body. -/
theorem spec_c10 (response : Except String FetchResponse)
    (satellites : List SatRecord) :
    ((fetchTLEData response satellites).1 = false →
        (fetchTLEData response satellites).2 = satellites) ∧
      ((fetchTLEData response satellites).1 = true →
        ∃ r text, response = .ok r ∧ r.ok = true ∧ r.text = .ok text ∧
          (fetchTLEData response satellites).2 =
            parseTLEfiltered ((text.trim).splitOn "\n")) := by
  rcases response with e | r
  · exact ⟨fun _ => rfl, fun h => by simp [fetchTLEData] at h⟩
  · rcases r with ⟨ok, text⟩
    rcases ok with _ | _
    · exact ⟨fun _ => rfl, fun h => by simp [fetchTLEData] at h⟩
    · rcases text with e | body
      · exact ⟨fun _ => rfl, fun h => by simp [fetchTLEData] at h⟩
      · refine ⟨fun h => by simp [fetchTLEData] at h, fun _ => ?_⟩
        exact ⟨⟨true, .ok body⟩, body, rfl, rfl, rfl, rfl⟩

/-- Witness for C10: a transport error leaves the catalog unchanged, and a
successful fetch replaces it with the parsed body. -/
theorem spec_c10_witness :
    (fetchTLEData (.error "network down") [satA]).2 = [satA] ∧
      ∃ r text,
        (Except.ok ⟨true, Except.ok "X"⟩ : Except String FetchResponse)
            = .ok r ∧
          r.ok = true ∧ r.text = .ok text ∧
          (fetchTLEData (.ok ⟨true, .ok "X"⟩) [satA]).2 =
            parseTLEfiltered ((text.trim).splitOn "\n") :=
  ⟨(spec_c10 (.error "network down") [satA]).1 rfl,
   (spec_c10 (.ok ⟨true, .ok "X"⟩) [satA]).2 rfl⟩

/-- C8: for every direction oracle, center, map radius and azimuth, if the
oracle returns a unit vector at that azimuth (as `cos`/`sin` do), then a
satellite at elevation 90° projects to exactly the map center and a
satellite at elevation 0° projects to squared distance `mapRadius²` from
the center, independent of the azimuth; the radial coordinate is the
linear `elevationRadius radius elevation = radius * (1 - elevation / 90)`. -/
theorem spec_c8 (dirFn : ℚ → ℚ × ℚ) (center radius azimuth : ℚ)
    (h : (dirFn azimuth).1 ^ 2 + (dirFn azimuth).2 ^ 2 = 1) :
    project dirFn center radius azimuth 90 = (center, center) ∧
      ((project dirFn center radius azimuth 0).1 - center) ^ 2 +
          ((project dirFn center radius azimuth 0).2 - center) ^ 2 =
        radius ^ 2 := by
  constructor
  · have h90 : elevationRadius radius 90 = 0 := by
      simp [elevationRadius]
    simp [project, h90]
  · have h0 : elevationRadius radius 0 = radius := by
      simp [elevationRadius]
    simp only [project, h0]
    ring_nf
    linear_combination radius ^ 2 * h

/-- Witness for C8 with a concrete unit-vector oracle, center 150, radius
130 and azimuth 45. -/
theorem spec_c8_witness :
    project dirEast 150 130 45 90 = (150, 150) ∧
      ((project dirEast 150 130 45 0).1 - 150) ^ 2 +
          ((project dirEast 150 130 45 0).2 - 150) ^ 2 = 130 ^ 2 :=
  spec_c8 dirEast 150 130 45 (by norm_num [dirEast])

/-- C2: the compass naming function maps azimuth 0° to `"N"`, every
azimuth in `[0°, 11.25°)` to `"N"`, every azimuth in `[348.75°, 360°]` to
`"N"` (wrap-around through `% 16`), and azimuth 90° to `"E"`. -/
theorem spec_c2 :
    getCompassDirection 0 = some "N" ∧
      (∀ az : ℚ, 0 ≤ az → az < 11.25 → getCompassDirection az = some "N") ∧
      (∀ az : ℚ, 348.75 ≤ az → az ≤ 360 →
        getCompassDirection az = some "N") ∧
      getCompassDirection 90 = some "E" := by
  refine ⟨?_, ?_, ?_, ?_⟩
  · have h : jsRound ((0 : ℚ) / (45/2)) = 0 := by norm_num [jsRound]
    simp only [getCompassDirection]
    rw [h]
    decide
  · intro az h0 h1
    have h : jsRound (az / (45/2)) = 0 := by
      have ha : (0 : ℚ) ≤ az / (45/2) := by positivity
      have hb : az / (45/2) < 1/2 := by
        rw [div_lt_iff₀ (by norm_num : (0:ℚ) < 45/2)]
        linarith
      rw [jsRound, Int.floor_eq_zero_iff]
      constructor
      · linarith
      · linarith
    simp only [getCompassDirection]
    rw [h]
    decide
  · intro az h0 h1
    have h : jsRound (az / (45/2)) = 16 := by
      have ha : (31/2 : ℚ) ≤ az / (45/2) := by
        rw [le_div_iff₀ (by norm_num : (0:ℚ) < 45/2)]
        linarith
      have hb : az / (45/2) < 33/2 := by
        rw [div_lt_iff₀ (by norm_num : (0:ℚ) < 45/2)]
        linarith
      rw [jsRound, Int.floor_eq_iff]
      constructor
      · push_cast
        linarith
      · push_cast
        linarith
    simp only [getCompassDirection]
    rw [h]
    decide
  · have h : jsRound ((90 : ℚ) / (45/2)) = 4 := by norm_num [jsRound]
    simp only [getCompassDirection]
    rw [h]
    decide

/-- Witness for C2 at the concrete azimuths 5° and 350°. -/
theorem spec_c2_witness :
    getCompassDirection 5 = some "N" ∧ getCompassDirection 350 = some "N" :=
  ⟨spec_c2.2.1 5 (by norm_num) (by norm_num),
   spec_c2.2.2.1 350 (by norm_num) (by norm_num)⟩

/-- Unfolding of `calculatePositions` at a known observer. -/
theorem calculatePositions_some (p : Propagator) (sats : List SatRecord)
    (obs : Observer) (now : ℤ) :
    calculatePositions p sats (some obs) now =
      if sats.length = 0 then ⟨[], []⟩
      else
        ⟨sortVisible (visiblePre p obs now sats),
         if (sortVisible (visiblePre p obs now sats)).length = 0 then
           sortPasses (scanMinutes p obs now sats minutesList [])
         else []⟩ := rfl

/-- A stable sort leaves the relative order of elements of any one key
untouched: filtering the sorted list by a predicate on which the order is
indifferent gives the filter of the input list. -/
theorem filter_insertionSort {α : Type} (r : α → α → Prop) [DecidableRel r]
    (q : α → Bool) (l : List α)
    (hq : ∀ a b, q a = true → q b = true → r a b) :
    (l.insertionSort r).filter q = l.filter q := by
  have hpw : (l.filter q).Pairwise r :=
    List.pairwise_of_forall_mem_list fun a ha b hb =>
      hq a b (List.of_mem_filter ha) (List.of_mem_filter hb)
  have hsub : (l.filter q).Sublist (l.insertionSort r) :=
    List.sublist_insertionSort hpw (List.filter_sublist l)
  have hself : (l.filter q).filter q = l.filter q :=
    List.filter_eq_self.mpr fun a ha => List.of_mem_filter ha
  have hsub2 : (l.filter q).Sublist ((l.insertionSort r).filter q) := by
    have := List.Sublist.filter q hsub
    rwa [hself] at this
  have hlen : ((l.insertionSort r).filter q).length = (l.filter q).length :=
    (List.Perm.filter q (List.perm_insertionSort r l)).length_eq
  exact (hsub2.eq_of_length hlen.symm).symm

/-- C4: the visible list returned by the sampler is sorted by elevation
non-increasing, and entries of equal elevation appear in their original
catalog order (the sort is stable): for every elevation value, filtering
the sorted output by that value gives exactly the corresponding
subsequence of the pre-sort list, which is built in catalog order. -/
theorem spec_c4 (p : Propagator) (catalog : List SatRecord)
    (obs : Observer) (now : ℤ) :
    ((calculatePositions p catalog (some obs) now).visible).Pairwise
        (fun a b => b.elevation ≤ a.elevation) ∧
      ∀ e : ℚ,
        ((calculatePositions p catalog (some obs) now).visible).filter
            (fun v => decide (v.elevation = e)) =
          (visiblePre p obs now catalog).filter
            (fun v => decide (v.elevation = e)) := by
  rw [calculatePositions_some]
  by_cases hc : catalog.length = 0
  · rw [if_pos hc]
    have hnil : catalog = [] := List.length_eq_zero.mp hc
    subst hnil
    exact ⟨List.Pairwise.nil, fun e => rfl⟩
  · rw [if_neg hc]
    constructor
    · exact List.sorted_insertionSort visOrder _
    · intro e
      refine filter_insertionSort visOrder _ _ fun a b ha hb => ?_
      have ha' := of_decide_eq_true ha
      have hb' := of_decide_eq_true hb
      show b.elevation ≤ a.elevation
      rw [ha', hb']

/-- The inner scan loop never grows the collected list beyond 5. -/
theorem scanSats_length_le (p : Propagator) (obs : Observer) (ft : ℤ)
    (minutes : ℕ) (sats : List SatRecord) :
    ∀ up : List PassEntry, up.length < 5 →
      (scanSats p obs ft minutes sats up).length ≤ 5 := by
  induction sats with
  | nil =>
    intro up h
    simp only [scanSats]
    omega
  | cons sat rest ih =>
    intro up h
    simp only [scanSats]
    cases checkSat p obs sat ft with
    | none => exact ih up h
    | some la =>
      dsimp only []
      split
      · split
        · next h5 =>
          simp only [List.length_append, List.length_singleton]
          omega
        · next h5 => exact ih _ (Nat.not_le.mp h5)
      · exact ih up h

/-- The outer scan loop never grows the collected list beyond 5. -/
theorem scanMinutes_length_le (p : Propagator) (obs : Observer) (now : ℤ)
    (sats : List SatRecord) :
    ∀ ms : List ℕ, ∀ up : List PassEntry, up.length < 5 →
      (scanMinutes p obs now sats ms up).length ≤ 5 := by
  intro ms
  induction ms with
  | nil =>
    intro up h
    simp only [scanMinutes]
    omega
  | cons m ms ih =>
    intro up h
    simp only [scanMinutes]
    split
    · exact scanSats_length_le p obs _ m _ up h
    · next h5 => exact ih _ (Nat.not_le.mp h5)

/-- The inner scan loop preserves the no-duplicate-designations
invariant (the `!upcoming.find(p => p.name === sat.name)` guard). -/
theorem scanSats_nodup (p : Propagator) (obs : Observer) (ft : ℤ)
    (minutes : ℕ) (sats : List SatRecord) :
    ∀ up : List PassEntry, (up.map PassEntry.name).Nodup →
      ((scanSats p obs ft minutes sats up).map PassEntry.name).Nodup := by
  induction sats with
  | nil =>
    intro up h
    simpa only [scanSats] using h
  | cons sat rest ih =>
    intro up h
    simp only [scanSats]
    cases checkSat p obs sat ft with
    | none => exact ih up h
    | some la =>
      dsimp only []
      split
      · next hcond =>
        have hnotin : sat.name ∉ up.map PassEntry.name := by
          rcases hcond with ⟨_, hfind⟩
          rw [Option.isNone_iff_eq_none, List.find?_eq_none] at hfind
          intro hmem
          rcases List.mem_map.mp hmem with ⟨q, hq, hqname⟩
          exact hfind q hq (by simp [hqname])
        have h' : ((up ++ [PassEntry.mk sat.name ft minutes]).map
            PassEntry.name).Nodup := by
          rw [List.map_append, List.nodup_append]
          exact ⟨h, List.nodup_singleton _,
            by simpa [List.Disjoint] using hnotin⟩
        split
        · exact h'
        · exact ih _ h'
      · exact ih up h

/-- The outer scan loop preserves the no-duplicate-designations
invariant. -/
theorem scanMinutes_nodup (p : Propagator) (obs : Observer) (now : ℤ)
    (sats : List SatRecord) :
    ∀ ms : List ℕ, ∀ up : List PassEntry, (up.map PassEntry.name).Nodup →
      ((scanMinutes p obs now sats ms up).map PassEntry.name).Nodup := by
  intro ms
  induction ms with
  | nil =>
    intro up h
    simpa only [scanMinutes] using h
  | cons m ms ih =>
    intro up h
    simp only [scanMinutes]
    split
    · exact scanSats_nodup p obs _ m _ up h
    · exact ih _ (scanSats_nodup p obs _ m _ up h)

/-- C3: the upcoming list of the sampler is non-empty only when the
visible list is empty, has at most 5 entries, at most one entry per record
designation, and is ordered non-decreasing by minutes-until. -/
theorem spec_c3 (p : Propagator) (catalog : List SatRecord)
    (obs : Observer) (now : ℤ) :
    ((calculatePositions p catalog (some obs) now).visible = [] ∨
        (calculatePositions p catalog (some obs) now).upcoming = []) ∧
      (calculatePositions p catalog (some obs) now).upcoming.length ≤ 5 ∧
      ((calculatePositions p catalog (some obs) now).upcoming.map
          PassEntry.name).Nodup ∧
      (calculatePositions p catalog (some obs) now).upcoming.Pairwise
        (fun a b => a.minutesUntil ≤ b.minutesUntil) := by
  rw [calculatePositions_some]
  by_cases hc : catalog.length = 0
  · rw [if_pos hc]
    exact ⟨Or.inl rfl, by simp, by simp, List.Pairwise.nil⟩
  · rw [if_neg hc]
    dsimp only []
    by_cases hv : (sortVisible (visiblePre p obs now catalog)).length = 0
    · rw [if_pos hv]
      refine ⟨Or.inl (List.length_eq_zero.mp hv), ?_, ?_, ?_⟩
      · rw [sortPasses, List.length_insertionSort]
        exact scanMinutes_length_le p obs now catalog minutesList []
          (by simp)
      · have hperm := List.perm_insertionSort passOrder
          (scanMinutes p obs now catalog minutesList [])
        rw [sortPasses]
        exact ((hperm.map PassEntry.name).nodup_iff).mpr
          (scanMinutes_nodup p obs now catalog minutesList [] (by simp))
      · exact List.sorted_insertionSort passOrder _
    · rw [if_neg hv]
      exact ⟨Or.inr rfl, by simp, by simp, List.Pairwise.nil⟩

/-- C5: if propagation throws or reports an invalid result for one record
at the sampled instant, only that record is skipped: the per-instant pass
over the catalog yields exactly the entries of the records before it
followed by the entries of the records after it, the sampler completes,
and its visible output is the one it would produce with the failing record
absent from the catalog. -/
theorem spec_c5 (p : Propagator) (obs : Observer) (now : ℤ)
    (pre post : List SatRecord) (sat : SatRecord)
    (h : (∃ e, p obs sat now = .error e) ∨ p obs sat now = .ok none) :
    visiblePre p obs now (pre ++ sat :: post) =
        visiblePre p obs now pre ++ visiblePre p obs now post ∧
      (calculatePositions p (pre ++ sat :: post) (some obs) now).visible =
        (calculatePositions p (pre ++ post) (some obs) now).visible := by
  have hcs : checkSat p obs sat now = none := by
    rcases h with ⟨e, he⟩ | h
    · simp [checkSat, he]
    · simp [checkSat, h]
  have hpre : visiblePre p obs now (pre ++ sat :: post) =
      visiblePre p obs now pre ++ visiblePre p obs now post := by
    simp [visiblePre, List.filterMap_append, List.filterMap_cons, hcs]
  have happ : visiblePre p obs now (pre ++ post) =
      visiblePre p obs now pre ++ visiblePre p obs now post := by
    simp [visiblePre, List.filterMap_append]
  have hpre2 : visiblePre p obs now (pre ++ sat :: post) =
      visiblePre p obs now (pre ++ post) := hpre.trans happ.symm
  refine ⟨hpre, ?_⟩
  rw [calculatePositions_some, calculatePositions_some,
    if_neg (by simp : ¬ (pre ++ sat :: post).length = 0)]
  by_cases hpp : (pre ++ post).length = 0
  · rw [if_pos hpp]
    have hnil : pre ++ post = [] := List.length_eq_zero.mp hpp
    dsimp only []
    rw [hpre2, hnil]
    rfl
  · rw [if_neg hpp]
    dsimp only []
    rw [hpre2]

/-- Witness for C5: a propagator that always throws, a two-record catalog,
and the failing record in front. -/
theorem spec_c5_witness :
    visiblePre propFail obs0 0 ([] ++ satA :: [satB]) =
        visiblePre propFail obs0 0 [] ++ visiblePre propFail obs0 0 [satB] ∧
      (calculatePositions propFail ([] ++ satA :: [satB])
          (some obs0) 0).visible =
        (calculatePositions propFail ([] ++ [satB]) (some obs0) 0).visible :=
  spec_c5 propFail obs0 0 [] [satB] satA
    (Or.inl ⟨"propagation failed", rfl⟩)

end Tracker
